import Mathlib

/-!
# go-http-client: request execution and response classification

A shallow embedding of `client.go` and `interceptors.go`.

* Go pointers become explicit state passing: the response object and the
  body stream handed out by the transport are threaded through every call
  that receives `*http.Response`.
* The standard library pieces the code calls (`encoding/json`, `net/url`,
  `net/http`) are parameters of the model; `path.Join` and
  `httputil.DumpResponse` are modelled after their documented behaviour.
* The envelopes `StatusResponse` and `ErrorResponse` carry an exported,
  untagged back-pointer to the response, so decoding a body into them can
  rewrite the response; a nil dereference is recorded as `panics`.
* Ghost state: the `closes` counter of a stream and the event trace of `Do`.
-/

namespace HttpClient

/-! ## Errors and envelopes -/

/-- A byte sequence (`[]byte`), written as text. -/
abbrev Bytes := String

/-- The JSON fields of the status envelope `StatusResponse`. Its fourth field,
the exported and untagged back-pointer `Response *http.Response`, is the
response object of `Do`: see `BackPointer`. -/
structure StatusResponse where
  Status : Int
  Msg : String
  Message : String
deriving DecidableEq

/-- The JSON field of the error payload `ErrorResponse`. Its other field, the
exported and untagged back-pointer `Response *http.Response`, is the response
object handed to `CheckResponse`: see `BackPointer`. -/
structure ErrorResponse where
  Message : String
deriving DecidableEq

/-- Values of Go's `error` interface that occur in the package. -/
inductive GoError where
  /-- The sentinel `io.EOF`. -/
  | EOF
  /-- An error known by its text: `errors.New`, `fmt.Errorf`, errors of the
  transport, of an interceptor, of the decoder. -/
  | text (msg : String)
  /-- The wrapper `errors.WithStack(e)`. -/
  | withStack (e : GoError)
  /-- A `*StatusResponse` used as an error. -/
  | status (r : StatusResponse)
  /-- An `*ErrorResponse` used as an error. -/
  | errorResponse (r : ErrorResponse)
deriving DecidableEq

/-- `(*StatusResponse).Error`. -/
def StatusResponse.Error (r : StatusResponse) : String :=
  if r.Status ≠ 0 ∧ (r.Status < 200 ∨ r.Status > 299) then
    if r.Msg = r.Message then
      "Status " ++ toString r.Status ++ ": " ++ r.Msg
    else
      "Status " ++ toString r.Status ++ ": " ++ r.Msg ++ " " ++ r.Message
  else
    ""

/-- `(*ErrorResponse).Error`. -/
def ErrorResponse.Error (r : ErrorResponse) : String :=
  r.Message

/-- The text `err.Error()` of an error value. -/
def GoError.Error : GoError → String
  | .EOF => "EOF"
  | .text msg => msg
  | .withStack e => e.Error
  | .status r => r.Error
  | .errorResponse r => r.Error

/-! ## URLs, headers, requests, responses -/

/-- A multimap `map[string][]string` (`url.Values`, `http.Header`) as an
association list; a key occurs at most once in a well-formed map. -/
abbrev Values := List (String × List String)

/-- The lookup `q[k]`: the values stored under `k`, none when `k` is absent. -/
def Values.get (q : Values) (k : String) : List String :=
  match q with
  | [] => []
  | (k', vs) :: rest => if k' = k then vs else Values.get rest k

/-- The update `q.Add(k, v)`: `q[k] = append(q[k], v)`. -/
def Values.Add (q : Values) (k v : String) : Values :=
  match q with
  | [] => [(k, [v])]
  | (k', vs) :: rest =>
    if k' = k then (k', vs ++ [v]) :: rest else (k', vs) :: Values.Add rest k v

/-- The fields of `url.URL` the client reads or writes. -/
structure URL where
  Scheme : String
  Host : String
  Path : String
  RawQuery : String
deriving DecidableEq

/-- An `*http.Request`. -/
structure Request where
  Method : String
  URL : String
  Header : Values
  Body : Bytes
deriving DecidableEq

/-- The state of the body stream the transport hands out with a response. -/
structure Stream where
  /-- Bytes not yet read. -/
  data : Bytes
  /-- How reading ends once `data` is delivered: `none` is `io.EOF`. -/
  err : Option GoError
  /-- What `Close` returns. -/
  closeErr : Option GoError
  /-- Ghost: number of `Close` calls so far. -/
  closes : Nat
deriving DecidableEq

/-- What `Response.Body` refers to. -/
inductive Body where
  /-- The stream of the transport. -/
  | net
  /-- An in-memory `io.NopCloser(bytes.NewReader(data))`, with its unread bytes. -/
  | nop (data : Bytes)
deriving DecidableEq

/-- An `*http.Response`. -/
structure Response where
  StatusCode : Int
  ContentLength : Int
  Header : Values
  Body : Body
deriving DecidableEq

/-- A response object together with the transport's stream. -/
structure RoundTrip where
  resp : Response
  net : Stream
deriving DecidableEq

/-- `io.ReadAll(r.Body)`: the unread bytes, the read error, and the state left
behind. -/
def ReadAll (b : Body) (net : Stream) : (Bytes × Option GoError) × (Body × Stream) :=
  match b with
  | .net => ((net.data, net.err), (.net, { net with data := "" }))
  | .nop d => ((d, none), (.nop "", net))

/-- `r.Body.Close()`. -/
def Close (b : Body) (net : Stream) : Option GoError × Stream :=
  match b with
  | .net => (net.closeErr, { net with closes := net.closes + 1 })
  | .nop _ => (none, net)

/-! ## The client -/

/-- A decode target `interface{}`: a value together with what
`json.Decoder.Decode` does to a value of its dynamic type. -/
structure Target where
  α : Type
  val : α
  decode : Bytes → α → α × Option GoError

/-- The plain fields of a client, as an interceptor reads them through its
`*Client` argument. -/
structure ClientView where
  debug : Bool
  baseURL : URL
  userAgent : String
deriving DecidableEq

/-- `RequestInterceptor`: may rewrite the request it is handed. -/
abbrev RequestInterceptor := ClientView → Request → Option Target → Request × Option GoError

/-- `ResponseInterceptor`: may rewrite the response and use its body. -/
abbrev ResponseInterceptor := ClientView → Request → RoundTrip → RoundTrip × Option GoError

/-- `ClientInterceptors`. -/
structure ClientInterceptors where
  request : List RequestInterceptor
  response : List ResponseInterceptor

/-- `Client`; `http` is the injected transport `c.http.Do`. -/
structure Client where
  http : Request → Except GoError RoundTrip
  debug : Bool
  baseURL : URL
  userAgent : String
  Interceptors : ClientInterceptors

/-- The view of a client given to interceptors. -/
def Client.view (c : Client) : ClientView :=
  { debug := c.debug, baseURL := c.baseURL, userAgent := c.userAgent }

/-- The constant `libraryVersion`. -/
def libraryVersion : String := "0.0.1"

/-- The package constant `userAgent`. -/
def userAgent : String := "go-http-client/" ++ libraryVersion

/-- `(*Client).SetHTTPClient`. -/
def Client.SetHTTPClient (c : Client) (client : Request → Except GoError RoundTrip) : Client :=
  { c with http := client }

/-- `Client.Debug`. -/
def Client.Debug (c : Client) : Bool := c.debug

/-- `(*Client).SetDebug`. -/
def Client.SetDebug (c : Client) (debug : Bool) : Client :=
  { c with debug := debug }

/-- `Client.BaseURL`. -/
def Client.BaseURL (c : Client) : URL := c.baseURL

/-- `(*Client).SetBaseURL`. -/
def Client.SetBaseURL (c : Client) (baseURL : URL) : Client :=
  { c with baseURL := baseURL }

/-- `(*Client).SetUserAgent`. -/
def Client.SetUserAgent (c : Client) (ua : String) : Client :=
  { c with userAgent := ua }

/-- `Client.UserAgent`: the body is `return userAgent`, and inside the method
that identifier is the package constant, not the field `c.userAgent`. -/
def Client.UserAgent (_c : Client) : String := HttpClient.userAgent

/-- `NewClient`, given the transport of the `*http.Client` (the default
client's when the argument is nil). -/
def NewClient (httpClient : Request → Except GoError RoundTrip) : Client :=
  let client : Client :=
    { http := fun _ => .error (.text "no transport"), debug := false,
      baseURL := ⟨"", "", "", ""⟩, userAgent := "", Interceptors := ⟨[], []⟩ }
  ((client.SetHTTPClient httpClient).SetDebug false).SetUserAgent userAgent

/-- `(*Client).NewRawRequest`; `newRequest` is `http.NewRequest`, and the
context is not modelled. -/
def Client.NewRawRequest (newRequest : String → String → Bytes → Except GoError Request)
    (c : Client) (method url : String) (body : Bytes) : Except GoError Request :=
  match newRequest method url body with
  | .error err => .error err
  | .ok r => .ok { r with Header := r.Header.Add "User-Agent" c.UserAgent }

/-- The methods of the `Request` interface that `NewRequest` calls:
`Method()`, `URL().String()`, and `RequestBodyInterface()` given as nil or as
what `json.NewEncoder(buf).Encode` makes of it. -/
structure LogicalRequest where
  Method : String
  URL : String
  RequestBodyInterface : Option (Except GoError Bytes)

/-- `(*Client).NewRequest`. -/
def Client.NewRequest (newRequest : String → String → Bytes → Except GoError Request)
    (c : Client) (req : LogicalRequest) : Except GoError Request :=
  -- convert body struct to json
  match (match req.RequestBodyInterface with
         | none => Except.ok ""
         | some encoded => encoded) with
  | .error err => .error err
  | .ok buf =>
    -- create new http request
    match c.NewRawRequest newRequest req.Method req.URL buf with
    | .error err => .error err
    | .ok r => .ok r

/-! ## Interceptors -/

/-- `(*ClientInterceptors).AddRequestInterceptor`. -/
def ClientInterceptors.AddRequestInterceptor (i : ClientInterceptors)
    (interceptor : RequestInterceptor) : ClientInterceptors :=
  { i with request := i.request ++ [interceptor] }

/-- `(*ClientInterceptors).AddResponseInterceptor`. -/
def ClientInterceptors.AddResponseInterceptor (i : ClientInterceptors)
    (interceptor : ResponseInterceptor) : ClientInterceptors :=
  { i with response := i.response ++ [interceptor] }

/-- Ghost events of one call of `Do`. -/
inductive Event where
  /-- The request interceptor at this position of `i.request` was invoked. -/
  | requestInterceptor (k : Nat)
  /-- The transport `c.http.Do` was called. -/
  | transport
  /-- The response interceptor at this position of `i.response` was invoked. -/
  | responseInterceptor (k : Nat)
deriving DecidableEq

/-- The loop of `handleRequestInterceptor` from position `k` on. -/
def requestLoop (client : ClientView) (body : Option Target) :
    Nat → List RequestInterceptor → Request → List Event → Request × List Event × Option GoError
  | _, [], request, tr => (request, tr, none)
  | k, interceptor :: rest, request, tr =>
    match interceptor client request body with
    | (request', some err) => (request', tr ++ [.requestInterceptor k], some err)
    | (request', none) => requestLoop client body (k + 1) rest request' (tr ++ [.requestInterceptor k])

/-- `(*ClientInterceptors).handleRequestInterceptor`: the request as the
interceptors left it, the interceptors invoked, and the error returned. -/
def ClientInterceptors.handleRequestInterceptor (i : ClientInterceptors) (client : ClientView)
    (request : Request) (body : Option Target) : Request × List Event × Option GoError :=
  requestLoop client body 0 i.request request []

/-- The loop of `handleResponseInterceptor` from position `k` on. -/
def responseLoop (client : ClientView) (request : Request) :
    Nat → List ResponseInterceptor → RoundTrip → List Event → RoundTrip × List Event × Option GoError
  | _, [], response, tr => (response, tr, none)
  | k, interceptor :: rest, response, tr =>
    match interceptor client request response with
    | (response', some err) => (response', tr ++ [.responseInterceptor k], some err)
    | (response', none) =>
      responseLoop client request (k + 1) rest response' (tr ++ [.responseInterceptor k])

/-- `(*ClientInterceptors).handleResponseInterceptor`. -/
def ClientInterceptors.handleResponseInterceptor (i : ClientInterceptors) (client : ClientView)
    (request : Request) (response : RoundTrip) : RoundTrip × List Event × Option GoError :=
  responseLoop client request 0 i.response response []

/-- `interceptors.CheckContentType`: `Header.Get` gives the first value of the
header or the empty text, `strings.Split(header, ";")[0]` what precedes the
first semicolon. -/
def CheckContentType (contentType : String) : ResponseInterceptor :=
  fun _ _ resp =>
    let header := (resp.resp.Header.get "Content-Type").headD ""
    let responseContentType := String.mk (header.data.takeWhile (· ≠ ';'))
    if responseContentType ≠ contentType then
      (resp, some (.text ("expected Content-Type \"" ++ contentType ++ "\", got \""
        ++ responseContentType ++ "\"")))
    else
      (resp, none)

/-! ## Decoding and classification -/

/-- What `json.NewDecoder(bytes.NewReader(b)).Decode(v)` does for one target
`v`: the target is a location of a store `σ`, the decoder rewrites the store
and returns an error or nil. -/
abbrev Decoder (σ : Type) := Bytes → σ → σ × Option GoError

/-- The first loop of `Unmarshal`, over the primary targets `vv`. -/
def decodePrimary {σ : Type} (b : Bytes) : List (Decoder σ) → σ → σ × Option GoError
  | [], st => (st, none)
  | v :: rest, st =>
    match v b st with
    | (st', err) =>
      if err ≠ none ∧ err ≠ some GoError.EOF then
        (st', err.map GoError.withStack)
      else
        decodePrimary b rest st'

/-- The second loop of `Unmarshal`, over the optional targets; the error of
each `Decode` is discarded. -/
def decodeOptional {σ : Type} (b : Bytes) : List (Decoder σ) → σ → σ
  | [], st => st
  | v :: rest, st => decodeOptional b rest (v b st).1

/-- `(*Client).Unmarshal`, reading from the body `r` (with the transport's
stream `net`): the reader state, the store and the error returned. -/
def Unmarshal {σ : Type} (r : Body) (net : Stream) (vv optionalVv : List (Decoder σ)) (st : σ) :
    (Body × Stream) × σ × Option GoError :=
  if vv.length = 0 ∧ optionalVv.length = 0 then
    ((r, net), st, none)
  else
    match ReadAll r net with
    | ((_, some err), rd) => (rd, st, some err)
    | ((b, none), rd) =>
      match decodePrimary b vv st with
      | (st', some err) => (rd, st', some err)
      | (st', none) => (rd, decodeOptional b optionalVv st', none)

/-- What `encoding/json` reaches of a response through the `Response`
back-pointer of an envelope. The field is exported and has no tag, so a key
`Response` of the body is decoded into the response object itself: its plain
fields are rewritten, and its `Body`, an interface, is set to nil by JSON
`null` and left alone by every other value. -/
structure BackPointer where
  StatusCode : Int
  ContentLength : Int
  Header : Values
  /-- Whether `Body` is nil. -/
  bodyNil : Bool
deriving DecidableEq

/-- The response as a decoder finds it behind a back-pointer. -/
def Response.backPointer (r : Response) (bodyNil : Bool) : BackPointer :=
  { StatusCode := r.StatusCode, ContentLength := r.ContentLength, Header := r.Header,
    bodyNil := bodyNil }

/-- The response as a decoder leaves it, `body` being its `Body` when that is
not nil. -/
def BackPointer.response (p : BackPointer) (body : Body) : Response :=
  { StatusCode := p.StatusCode, ContentLength := p.ContentLength, Header := p.Header,
    Body := body }

/-- The two uses of `encoding/json` on the package's own types. A decoder
rewrites the envelope it is given and the response behind its back-pointer,
also when it returns an error. -/
structure JSON where
  /-- `Decode` into a `*StatusResponse`. -/
  decodeStatus : Bytes → StatusResponse × BackPointer →
    (StatusResponse × BackPointer) × Option GoError
  /-- `json.Unmarshal(data, &errorResponse)`, the target being a pointer to
  the pointer `errorResponse`: JSON `null` sets `errorResponse` to nil, which
  is `none` here. -/
  unmarshalError : Bytes → ErrorResponse × BackPointer →
    (Option ErrorResponse × BackPointer) × Option GoError

/-- What a call of `CheckResponse` leaves behind. -/
structure CheckResult where
  /-- The returned error; `none` also when the call panics. -/
  err : Option GoError
  /-- The response and the stream as they are left. -/
  r : RoundTrip
  /-- Whether `r.Body` is nil when the call ends. -/
  bodyNil : Bool
  /-- Whether the call ends in a run-time panic (a nil dereference). -/
  panics : Bool
deriving DecidableEq

/-- `CheckResponse` on the response `r`, whose `Body` is nil when `bodyNil`
is set. -/
def CheckResponse (json : JSON) (r : RoundTrip) (bodyNil : Bool) : CheckResult :=
  let errorResponse : ErrorResponse := { Message := "" }
  if r.resp.StatusCode ≥ 200 ∧ r.resp.StatusCode ≤ 299 then
    { err := none, r := r, bodyNil := bodyNil, panics := false }
  else if bodyNil then
    -- io.ReadAll calls Read on a nil reader
    { err := none, r := r, bodyNil := true, panics := true }
  else
    -- read data and copy it back
    match ReadAll r.resp.Body r.net with
    | ((data, err), (_, net)) =>
      let r : RoundTrip := { resp := { r.resp with Body := .nop data }, net := net }
      if err ≠ none then
        { err := some (.errorResponse errorResponse), r := r, bodyNil := false, panics := false }
      else if r.resp.ContentLength = 0 then
        { err := some (.text "response body is empty"), r := r, bodyNil := false,
          panics := false }
      else
        -- convert json to struct
        match (if data.length ≠ 0 then
                 json.unmarshalError data (errorResponse, r.resp.backPointer false)
               else ((some errorResponse, r.resp.backPointer false), none)) with
        | ((_, ptr), some err) =>
          { err := some (.withStack err), r := { r with resp := ptr.response r.resp.Body },
            bodyNil := ptr.bodyNil, panics := false }
        | ((none, ptr), none) =>
          -- errorResponse.Message on a nil pointer
          { err := none, r := { r with resp := ptr.response r.resp.Body },
            bodyNil := ptr.bodyNil, panics := true }
        | ((some errorResponse, ptr), none) =>
          if errorResponse.Message ≠ "" then
            { err := some (.errorResponse errorResponse),
              r := { r with resp := ptr.response r.resp.Body },
              bodyNil := ptr.bodyNil, panics := false }
          else
            { err := none, r := { r with resp := ptr.response r.resp.Body },
              bodyNil := ptr.bodyNil, panics := false }

/-- `httputil.DumpResponse(resp, true)` as far as it touches the response: the
body is drained into memory and closed (`drainBody`), and `resp.Body` is
replaced by an in-memory copy; if draining or closing fails the body stays. -/
def DumpResponse (r : RoundTrip) : RoundTrip :=
  match r.resp.Body with
  | .nop _ => r
  | .net =>
    let net : Stream := { r.net with data := "" }
    match r.net.err with
    | some _ => { r with net := net }
    | none =>
      let net : Stream := { net with closes := net.closes + 1 }
      match r.net.closeErr with
      | some _ => { r with net := net }
      | none => { resp := { r.resp with Body := .nop r.net.data }, net := net }

/-! ## Do -/

/-- Decoding into the caller's target `body`, the first location of the
store of `Do`. -/
def targetDecoder (target : Target) : Decoder (target.α × StatusResponse × BackPointer) :=
  fun b st => (((target.decode b st.1).1, st.2), (target.decode b st.1).2)

/-- Decoding into the local `status`, made as `&StatusResponse{Response:
httpResp}`: the other locations of the store of `Do`, the envelope and the
response behind its back-pointer. -/
def statusDecoder (json : JSON) (α : Type) : Decoder (α × StatusResponse × BackPointer) :=
  fun b st => ((st.1, (json.decodeStatus b st.2).1), (json.decodeStatus b st.2).2)

/-- What a call of `Do` leaves behind. -/
structure DoResult where
  /-- The returned `*http.Response`: nil, or the response object as it is
  when `Do` returns. -/
  resp : Option Response
  /-- The returned error. -/
  err : Option GoError
  /-- The caller's decode target after the call. -/
  body : Option Target
  /-- The transport's body stream when `Do` ends, if a response was received. -/
  net : Option Stream
  /-- Ghost: the interceptors and the transport, in the order they were invoked. -/
  trace : List Event
  /-- Whether the call ends in a run-time panic instead of returning; `resp`
  and `err` are then `none`. -/
  panics : Bool

/-- A `return httpResp, err` of `Do` after the `defer` statement: the deferred
function closes `httpResp.Body`, which panics when `Body` is nil; its
assignment to the local `err` does not reach the (unnamed) results. -/
def returnDeferred (bodyNil : Bool) (httpResp : RoundTrip) (err : Option GoError)
    (body : Option Target) (tr : List Event) : DoResult :=
  if bodyNil then
    { resp := none, err := none, body := body, net := some httpResp.net, trace := tr,
      panics := true }
  else
    { resp := some httpResp.resp, err := err, body := body,
      net := some (Close httpResp.resp.Body httpResp.net).2, trace := tr, panics := false }

/-- `(*Client).Do`. The transport returns a response with a body, or an
error, as `http.Client.Do` does, so the test `httpResp == nil` is never
taken; the debug dump of the request leaves it as it was. -/
def Client.Do (json : JSON) (c : Client) (req : Request) (body : Option Target) : DoResult :=
  -- Handle request interceptors
  match c.Interceptors.handleRequestInterceptor c.view req body with
  | (_, tr, some err) =>
    { resp := none, err := some err, body := body, net := none, trace := tr, panics := false }
  | (req, tr, none) =>
    match c.http req with
    | .error err =>
      { resp := none, err := some err, body := body, net := none, trace := tr ++ [.transport],
        panics := false }
    | .ok httpResp =>
      -- Handle response interceptors
      match c.Interceptors.handleResponseInterceptor c.view req httpResp with
      | (httpResp, tr', some err) =>
        { resp := none, err := some err, body := body, net := some httpResp.net,
          trace := tr ++ [.transport] ++ tr', panics := false }
      | (httpResp, tr', none) =>
        let tr := tr ++ [.transport] ++ tr'
        let httpResp := if c.debug then DumpResponse httpResp else httpResp
        -- check the provided interface parameter
        match body with
        | none => returnDeferred false httpResp none none tr
        | some target =>
          if httpResp.resp.ContentLength = 0 then
            returnDeferred false httpResp none (some target) tr
          else
            let status : StatusResponse := { Status := 0, Msg := "", Message := "" }
            match Unmarshal httpResp.resp.Body httpResp.net
                [targetDecoder target] [statusDecoder json target.α]
                (target.val, status, httpResp.resp.backPointer false) with
            | ((rd, net), (val, status, ptr), err) =>
              -- the response as the decoders left it
              let httpResp : RoundTrip := { resp := ptr.response rd, net := net }
              let body := some { target with val := val }
              if err ≠ none then
                returnDeferred ptr.bodyNil httpResp err body tr
              else if status.Error ≠ "" then
                returnDeferred ptr.bodyNil httpResp (some (.status status)) body tr
              else
                -- check if the response isn't an error
                match CheckResponse json httpResp ptr.bodyNil with
                | checked =>
                  if checked.panics then
                    -- the deferred close runs while panicking
                    { resp := none, err := none, body := body,
                      net := some (if checked.bodyNil then checked.r.net
                                   else (Close checked.r.resp.Body checked.r.net).2),
                      trace := tr, panics := true }
                  else if checked.err ≠ none then
                    returnDeferred checked.bodyNil checked.r checked.err body tr
                  else
                    returnDeferred checked.bodyNil checked.r none body tr

/-! ## Sample values -/

/-- A request interceptor that adds an `Authorization` header. -/
def addAuthorization : RequestInterceptor :=
  fun _ request _ => ({ request with Header := request.Header.Add "Authorization" "Bearer t" }, none)

/-- A request interceptor that refuses every request. -/
def denyRequest : RequestInterceptor :=
  fun _ request _ => (request, some (.text "denied"))

/-- A response interceptor that lets every response pass. -/
def passResponse : ResponseInterceptor :=
  fun _ _ response => (response, none)

/-- A `GET` request. -/
def sampleRequest : Request :=
  { Method := "GET", URL := "https://example.com/api/properties", Header := [], Body := "" }

/-- A transport answering every request with the given status code and body. -/
def fixedTransport (code : Int) (contentLength : Int) (data : Bytes) :
    Request → Except GoError RoundTrip :=
  fun _ => .ok { resp := { StatusCode := code, ContentLength := contentLength, Header := [],
                           Body := .net },
                 net := { data := data, err := none, closeErr := none, closes := 0 } }

/-- The documents of the examples, as `encoding/json` decodes them into the
two envelope types: keys are matched case-insensitively, and the key
`Response` is decoded into the response behind the back-pointer. -/
def sampleJSON : JSON where
  decodeStatus b s :=
    if b = "" then (s, some .EOF)
    else if b = "\x7b\"status\":500,\"msg\":\"down\"\x7d" then
      (({ s.1 with Status := 500, Msg := "down" }, s.2), none)
    else if b = "\x7b\"Message\":\"boom\"\x7d" then (({ s.1 with Message := "boom" }, s.2), none)
    else if b = "\x7b\x7d" then (s, none)
    else if b = "\x7b\"status\":500,\"Response\":\x7b\"Body\":null\x7d\x7d" then
      (({ s.1 with Status := 500 }, { s.2 with bodyNil := true }), none)
    else if b = "\x7b\"Response\":\x7b\"StatusCode\":500,\"ContentLength\":0\x7d\x7d" then
      ((s.1, { s.2 with StatusCode := 500, ContentLength := 0 }), none)
    else (s, some (.text "invalid character"))
  unmarshalError b e :=
    if b = "\x7b\"Message\":\"boom\"\x7d" then ((some { e.1 with Message := "boom" }, e.2), none)
    else if b = "\x7b\"status\":500,\"msg\":\"down\"\x7d" then ((some e.1, e.2), none)
    else if b = "\x7b\x7d" then ((some e.1, e.2), none)
    else if b = "null" then ((none, e.2), none)
    else ((some e.1, e.2), some (.text "invalid character"))

/-- A target that keeps the document it is given (a `*json.RawMessage`). -/
def rawTarget : Target :=
  { α := Bytes, val := "",
    decode := fun b v => if b = "" then (v, some .EOF) else (b, none) }

/-- A client as `NewClient` makes it, with the given transport and interceptors. -/
def sampleClient (http : Request → Except GoError RoundTrip)
    (request : List RequestInterceptor) (response : List ResponseInterceptor) : Client :=
  { NewClient http with Interceptors := ⟨request, response⟩ }

/-- An `http.NewRequest` that accepts every method and URL. -/
def plainNewRequest : String → String → Bytes → Except GoError Request :=
  fun method url body => .ok { Method := method, URL := url, Header := [], Body := body }

/-! ## Endpoint URLs -/

/-- The functions of `net/url` that `GetEndpointURL` calls. -/
structure URLPackage where
  /-- `url.Parse`. -/
  Parse : String → Except GoError URL
  /-- `URL.Query` on a raw query: the parsed values, malformed pairs dropped. -/
  ParseQuery : String → Values
  /-- `Values.Encode`. -/
  Encode : Values → String

/-- The keys of a map, each once. -/
def Values.keys (q : Values) : List String :=
  (q.map Prod.fst).dedup

/-- The inner loop of `GetEndpointURL`: `for _, v := range vv { q.Add(k, v) }`. -/
def addValues (q : Values) (k : String) : List String → Values
  | [] => q
  | v :: vv => addValues (q.Add k v) k vv

/-- The outer loop of `GetEndpointURL` over the keys of `src`:
`for k, vv := range src { ... }`. -/
def addQuery (src : Values) (q : Values) : List String → Values
  | [] => q
  | k :: ks => addQuery src (addValues q k (src.get k)) ks

/-- The elements of a path between its slashes. -/
def splitSlash : List Char → List (List Char)
  | [] => [[]]
  | c :: cs =>
    if c = '/' then [] :: splitSlash cs
    else
      match splitSlash cs with
      | [] => [[c]]
      | w :: ws => (c :: w) :: ws

/-- The pass of `path.Clean` over the elements of a path, `out` being the
elements kept so far, last first: empty and `.` elements are dropped, a `..`
removes the element before it, is dropped at the root, and is kept at the
start of a path that is not rooted. -/
def cleanElements (rooted : Bool) : List (List Char) → List (List Char) → List (List Char)
  | [], out => out.reverse
  | e :: es, out =>
    if e = [] ∨ e = ['.'] then cleanElements rooted es out
    else if e = ['.', '.'] then
      match out with
      | [] => if rooted then cleanElements rooted es [] else cleanElements rooted es [e]
      | top :: out' =>
        if top = ['.', '.'] then cleanElements rooted es (e :: top :: out')
        else cleanElements rooted es out'
    else cleanElements rooted es (e :: out)

/-- The elements of a path written out with a slash between them. -/
def joinSlash : List (List Char) → List Char
  | [] => []
  | [w] => w
  | w :: ws => w ++ '/' :: joinSlash ws

/-- `path.Clean`, on the characters of a path. -/
def cleanChars (p : List Char) : List Char :=
  match p with
  | [] => ['.']
  | c :: _ =>
    let rooted := decide (c = '/')
    let body := joinSlash (cleanElements rooted (splitSlash p) [])
    match (if rooted then '/' :: body else body) with
    | [] => ['.']
    | s => s

/-- `path.Join(a, b)`: the elements are joined by a slash, leading empty
elements skipped, and the result is cleaned; empty when both are empty. -/
def Join (a b : String) : String :=
  if a.length + b.length = 0 then ""
  else if a = "" then String.mk (cleanChars b.data)
  else String.mk (cleanChars (a.data ++ '/' :: b.data))

/-- `(*Client).GetEndpointURL`: the URL returned and the client after the
call; `none` when `url.Parse` fails and `log.Fatal` ends the process. -/
def Client.GetEndpointURL (url : URLPackage) (c : Client) (p : String) : Option (URL × Client) :=
  -- Starting point is the Base URL
  let clientURL := c.BaseURL
  -- Parse URL
  match url.Parse p with
  | .error _ => none
  | .ok parsed =>
    -- Set the query
    let q := url.ParseQuery clientURL.RawQuery
    let q := addQuery (url.ParseQuery parsed.RawQuery) q (url.ParseQuery parsed.RawQuery).keys
    -- Encode query
    let clientURL := { clientURL with RawQuery := url.Encode q }
    -- Join Base URL with path
    let clientURL := { clientURL with Path := Join clientURL.Path parsed.Path }
    some (clientURL, c)

/-- The pieces of a text between occurrences of a separator. -/
def splitChar (sep : Char) : List Char → List (List Char)
  | [] => [[]]
  | c :: cs =>
    if c = sep then [] :: splitChar sep cs
    else
      match splitChar sep cs with
      | [] => [[c]]
      | w :: ws => (c :: w) :: ws

/-- Pieces written out with a separator between them. -/
def joinChar (sep : Char) : List (List Char) → List Char
  | [] => []
  | [w] => w
  | w :: ws => w ++ sep :: joinChar sep ws

/-- One `key=value` pair of a raw query. -/
def plainPair (pair : List Char) : String × String :=
  (String.mk (pair.takeWhile (· ≠ '=')), String.mk ((pair.dropWhile (· ≠ '=')).drop 1))

/-- The order of keys in an encoded query. -/
def keyBefore : List Char → List Char → Bool
  | [], [] => false
  | [], _ :: _ => true
  | _ :: _, [] => false
  | a :: as, b :: bs =>
    if a.toNat < b.toNat then true else if a = b then keyBefore as bs else false

/-- Inserting an entry into a list sorted by key. -/
def insertByKey (e : String × List String) : Values → Values
  | [] => [e]
  | e' :: rest =>
    if keyBefore e.1.data e'.1.data then e :: e' :: rest else e' :: insertByKey e rest

/-- The `key=value` pairs of one key. -/
def plainPairs (k : String) (vs : List String) : List (List Char) :=
  vs.map (fun v => k.data ++ '=' :: v.data)

/-- A stand-in for `net/url` on texts without escapes, schemes, hosts or
fragments: a reference is split at its first `?`, a raw query at `&` and `=`,
and values are encoded sorted by key. -/
def plainURL : URLPackage where
  Parse p :=
    .ok { Scheme := "", Host := "",
          Path := String.mk (p.data.takeWhile (· ≠ '?')),
          RawQuery := String.mk ((p.data.dropWhile (· ≠ '?')).drop 1) }
  ParseQuery raw :=
    ((splitChar '&' raw.data).filter (· ≠ [])).foldl
      (fun q pair => q.Add (plainPair pair).1 (plainPair pair).2) []
  Encode q :=
    String.mk (joinChar '&' (((q.foldr insertByKey []).map (fun e => plainPairs e.1 e.2)).flatten))

/-! # Theorems -/

theorem requestLoop_pass (v : ClientView) (body : Option Target) :
    ∀ (fs : List RequestInterceptor) (k0 : Nat) (req : Request) (tr : List Event)
      (r : Request) (tr' : List Event),
      requestLoop v body k0 fs req tr = (r, tr', none) →
      tr' = tr ++ (List.range' k0 fs.length).map Event.requestInterceptor := by
  intro fs
  induction fs with
  | nil =>
    intro k0 req tr r tr' h
    simp [requestLoop] at h
    simp [h.2]
  | cons f rest ih =>
    intro k0 req tr r tr' h
    rw [requestLoop] at h
    rcases hf : f v req body with ⟨rq, _ | e⟩
    · rw [hf] at h
      have := ih _ _ _ _ _ h
      simp [this, List.range'_succ]
    · rw [hf] at h
      simp at h

theorem requestLoop_fail (v : ClientView) (body : Option Target) :
    ∀ (fs : List RequestInterceptor) (k0 : Nat) (req : Request) (tr : List Event)
      (k : Nat) (hk : k < fs.length) (reqk : Request) (trk : List Event) (req' : Request)
      (e : GoError),
      requestLoop v body k0 (fs.take k) req tr = (reqk, trk, none) →
      fs[k] v reqk body = (req', some e) →
      requestLoop v body k0 fs req tr
        = (req', tr ++ (List.range' k0 (k + 1)).map Event.requestInterceptor, some e) := by
  intro fs
  induction fs with
  | nil => intro k0 req tr k hk; simp at hk
  | cons f rest ih =>
    intro k0 req tr k hk reqk trk req' e hpre hk'
    cases k with
    | zero =>
      simp [requestLoop] at hpre
      obtain ⟨h1, -⟩ := hpre
      subst h1
      simp at hk'
      simp [requestLoop, hk']
    | succ k =>
      simp only [List.take_succ_cons] at hpre
      rw [requestLoop] at hpre
      rw [requestLoop]
      rcases hf : f v req body with ⟨rq, _ | e'⟩
      · rw [hf] at hpre
        simp only [List.getElem_cons_succ] at hk'
        have := ih (k0 + 1) rq (tr ++ [Event.requestInterceptor k0]) k (by simpa using hk) reqk trk req' e hpre hk'
        simp only [this]
        simp [List.range'_succ]
      · rw [hf] at hpre
        simp at hpre

theorem responseLoop_trace (v : ClientView) (req : Request) :
    ∀ (fs : List ResponseInterceptor) (k0 : Nat) (rt : RoundTrip) (tr : List Event),
      ∃ rest, (responseLoop v req k0 fs rt tr).2.1 = tr ++ rest ∧
        ∀ ev ∈ rest, ∃ k, ev = Event.responseInterceptor k := by
  intro fs
  induction fs with
  | nil => intro k0 rt tr; exact ⟨[], by simp [responseLoop]⟩
  | cons f rest ih =>
    intro k0 rt tr
    rw [responseLoop]
    rcases hf : f v req rt with ⟨rt', _ | e⟩
    · obtain ⟨rest', h1, h2⟩ := ih (k0 + 1) rt' (tr ++ [Event.responseInterceptor k0])
      refine ⟨Event.responseInterceptor k0 :: rest', by simp [h1], ?_⟩
      intro ev hev
      rcases List.mem_cons.1 hev with h | h
      · exact ⟨k0, h⟩
      · exact h2 ev h
    · exact ⟨[Event.responseInterceptor k0], by simp, by simp⟩

theorem foldl_AddRequestInterceptor (fs : List RequestInterceptor) :
    ∀ i : ClientInterceptors,
      (fs.foldl ClientInterceptors.AddRequestInterceptor i).request = i.request ++ fs ∧
      (fs.foldl ClientInterceptors.AddRequestInterceptor i).response = i.response := by
  induction fs with
  | nil => intro i; simp
  | cons f rest ih =>
    intro i
    simp [List.foldl_cons, ih, ClientInterceptors.AddRequestInterceptor]

theorem returnDeferred_trace (bodyNil : Bool) (httpResp : RoundTrip) (err : Option GoError)
    (body : Option Target) (tr : List Event) :
    (returnDeferred bodyNil httpResp err body tr).trace = tr := by
  unfold returnDeferred
  split <;> rfl

theorem Do_trace_of_pass (json : JSON) (c : Client) (req : Request) (body : Option Target)
    (req1 : Request) (tr : List Event)
    (h : c.Interceptors.handleRequestInterceptor c.view req body = (req1, tr, none)) :
    ∃ rest, (c.Do json req body).trace = tr ++ Event.transport :: rest ∧
      ∀ ev ∈ rest, ∃ k, ev = Event.responseInterceptor k := by
  unfold Client.Do
  rw [h]
  simp only
  cases hh : c.http req1 with
  | error e => exact ⟨[], by simp, by simp⟩
  | ok rt =>
    simp only
    obtain ⟨rest, h1, h2⟩ := responseLoop_trace c.view req1 c.Interceptors.response 0 rt []
    rcases hr : c.Interceptors.handleResponseInterceptor c.view req1 rt with ⟨rt', tr', err⟩
    have htr : tr' = rest := by
      have : (c.Interceptors.handleResponseInterceptor c.view req1 rt).2.1 = tr' := by rw [hr]
      rw [← this]; simpa [ClientInterceptors.handleResponseInterceptor] using h1
    subst htr
    refine ⟨tr', ?_, h2⟩
    cases err with
    | some e => simp
    | none =>
      simp only
      generalize (if c.debug then DumpResponse rt' else rt') = rt2
      cases body with
      | none => simp [returnDeferred_trace]
      | some target =>
        simp only
        split_ifs <;> simp [returnDeferred_trace]

/-- C1: request interceptors are appended by `AddRequestInterceptor` and run by
`Do` in list order; when the one at position `k` is the first to fail,
exactly positions `0..k` have run, the transport is not called and `Do`
returns that error with a nil response; when none fails, each runs once and
then the transport is called. -/
theorem Do_request_interceptors_in_order (json : JSON) (c : Client) (req : Request)
    (body : Option Target) (fs : List RequestInterceptor) (i : ClientInterceptors) :
    (fs.foldl ClientInterceptors.AddRequestInterceptor i).request = i.request ++ fs ∧
    (∀ (k : Nat) (hk : k < c.Interceptors.request.length) (reqk : Request)
        (trk : List Event) (req' : Request) (e : GoError),
        requestLoop c.view body 0 (c.Interceptors.request.take k) req [] = (reqk, trk, none) →
        c.Interceptors.request[k] c.view reqk body = (req', some e) →
        (c.Do json req body).trace = (List.range (k + 1)).map Event.requestInterceptor ∧
        Event.transport ∉ (c.Do json req body).trace ∧
        (c.Do json req body).err = some e ∧
        (c.Do json req body).resp = none) ∧
    ((c.Interceptors.handleRequestInterceptor c.view req body).2.2 = none →
        ∃ rest, (c.Do json req body).trace
            = (List.range c.Interceptors.request.length).map Event.requestInterceptor
              ++ Event.transport :: rest ∧
          ∀ ev ∈ rest, ∃ k, ev = Event.responseInterceptor k) := by
  refine ⟨(foldl_AddRequestInterceptor fs i).1, ?_, ?_⟩
  · intro k hk reqk trk req' e hpre hfail
    have h := requestLoop_fail c.view body c.Interceptors.request 0 req [] k hk reqk trk req' e
      hpre hfail
    have hDo : c.Do json req body
        = { resp := none, err := some e, body := body, net := none,
            trace := (List.range (k + 1)).map Event.requestInterceptor, panics := false } := by
      unfold Client.Do ClientInterceptors.handleRequestInterceptor
      rw [h]
      simp [List.range_eq_range']
    rw [hDo]
    simp
  · intro hnone
    rcases hr : c.Interceptors.handleRequestInterceptor c.view req body with ⟨req1, tr, err⟩
    rw [hr] at hnone
    simp only at hnone
    subst hnone
    have htr := requestLoop_pass c.view body c.Interceptors.request 0 req [] req1 tr hr
    obtain ⟨rest, h1, h2⟩ := Do_trace_of_pass json c req body req1 tr hr
    refine ⟨rest, ?_, h2⟩
    rw [h1, htr]
    simp [List.range_eq_range']

/-- C1 at a client whose second request interceptor refuses the request. -/
theorem Do_request_interceptors_in_order_witness :
    ((sampleClient (fixedTransport 200 2 "\x7b\x7d") [addAuthorization, denyRequest] []).Do
        sampleJSON sampleRequest none).trace
      = [Event.requestInterceptor 0, Event.requestInterceptor 1] ∧
    ((sampleClient (fixedTransport 200 2 "\x7b\x7d") [addAuthorization, denyRequest] []).Do
        sampleJSON sampleRequest none).err = some (GoError.text "denied") := by
  have h := (Do_request_interceptors_in_order sampleJSON
    (sampleClient (fixedTransport 200 2 "\x7b\x7d") [addAuthorization, denyRequest] [])
    sampleRequest none [] ⟨[], []⟩).2.1 1 (by decide)
    { sampleRequest with Header := [("Authorization", ["Bearer t"])] }
    [Event.requestInterceptor 0]
    { sampleRequest with Header := [("Authorization", ["Bearer t"])] }
    (GoError.text "denied") rfl rfl
  exact ⟨h.1, h.2.2.1⟩

theorem DumpResponse_resp (rt : RoundTrip) :
    (DumpResponse rt).resp.ContentLength = rt.resp.ContentLength ∧
    (DumpResponse rt).resp.StatusCode = rt.resp.StatusCode := by
  unfold DumpResponse
  repeat' split
  all_goals simp

/-- C8: with a nil decode target, or a response whose `ContentLength` is 0,
once the transport has answered and all interceptors have passed, `Do`
returns the response with a nil error whatever its status code and body: the
body is not read, the target is left as it was, and only the deferred close
touches the stream, and the call does not panic. -/
theorem Do_skips_decoding (json : JSON) (c : Client) (req req1 : Request)
    (body : Option Target) (tr1 tr2 : List Event) (rt0 rt1 : RoundTrip)
    (hreq : c.Interceptors.handleRequestInterceptor c.view req body = (req1, tr1, none))
    (hhttp : c.http req1 = .ok rt0)
    (hresp : c.Interceptors.handleResponseInterceptor c.view req1 rt0 = (rt1, tr2, none))
    (hskip : body.isNone = true ∨ rt1.resp.ContentLength = 0) :
    (c.Do json req body).err = none ∧
    (c.Do json req body).resp = some (if c.debug then DumpResponse rt1 else rt1).resp ∧
    (c.Do json req body).net
      = some (Close (if c.debug then DumpResponse rt1 else rt1).resp.Body
                (if c.debug then DumpResponse rt1 else rt1).net).2 ∧
    (c.Do json req body).body = body ∧
    (c.Do json req body).panics = false := by
  have hcl : rt1.resp.ContentLength = 0 →
      (if c.debug then DumpResponse rt1 else rt1).resp.ContentLength = 0 := by
    intro h
    split
    · rw [(DumpResponse_resp rt1).1, h]
    · exact h
  unfold Client.Do
  rw [hreq]
  simp only
  rw [hhttp]
  simp only
  rw [hresp]
  simp only
  cases body with
  | none => simp [returnDeferred]
  | some t =>
    have h0 : rt1.resp.ContentLength = 0 := by simpa using hskip
    simp only [hcl h0, if_true]
    simp [returnDeferred]

/-- C8 at a response with status 500, `ContentLength` 0 and a body that is
not empty, received with a non-nil target. -/
theorem Do_skips_decoding_witness :
    ((sampleClient (fixedTransport 500 0 "oops") [addAuthorization] [passResponse]).Do
        sampleJSON sampleRequest (some rawTarget)).err = none ∧
    ((sampleClient (fixedTransport 500 0 "oops") [addAuthorization] [passResponse]).Do
        sampleJSON sampleRequest (some rawTarget)).resp = some ⟨500, 0, [], Body.net⟩ := by
  have h := Do_skips_decoding sampleJSON
    (sampleClient (fixedTransport 500 0 "oops") [addAuthorization] [passResponse])
    sampleRequest { sampleRequest with Header := [("Authorization", ["Bearer t"])] }
    (some rawTarget) [Event.requestInterceptor 0] [Event.responseInterceptor 0]
    ⟨⟨500, 0, [], Body.net⟩, ⟨"oops", none, none, 0⟩⟩
    ⟨⟨500, 0, [], Body.net⟩, ⟨"oops", none, none, 0⟩⟩ rfl rfl rfl (Or.inr rfl)
  exact ⟨h.1, h.2.1⟩
theorem StatusResponse.Error_ne_empty (st : StatusResponse)
    (hnz : st.Status ≠ 0) (hout : st.Status < 200 ∨ st.Status > 299) : st.Error ≠ "" := by
  have key : ∀ t : String, "Status " ++ t ≠ "" := by
    intro t h
    have := congrArg String.length h
    rw [String.length_append] at this
    have h7 : "Status ".length = 7 := by decide
    simp [h7] at this
  unfold StatusResponse.Error
  rw [if_pos ⟨hnz, hout⟩]
  split
  · simpa [String.append_assoc] using key _
  · simpa [String.append_assoc] using key _

theorem StatusResponse.Error_eq_empty (st : StatusResponse)
    (h : st.Status = 0 ∨ (200 ≤ st.Status ∧ st.Status ≤ 299)) : st.Error = "" := by
  unfold StatusResponse.Error
  rw [if_neg]
  rintro ⟨h1, h2⟩
  rcases h with h | h
  · exact h1 h
  · omega

theorem BackPointer.response_backPointer (r : Response) (b : Body) :
    (r.backPointer false).response b = { r with Body := b } := rfl

/-- As long as the body does not make the decoder set `httpResp.Body` to nil
through the back-pointer of the envelope, a status envelope with a non-zero
status outside [200,299] is returned as the error of `Do`, with the response
as the decoder left it. -/
theorem Do_status_envelope_error_of_body_kept (json : JSON) (c : Client) (req req1 : Request)
    (target : Target) (tr1 tr2 : List Event) (rt0 rt1 : RoundTrip)
    (data : Bytes) (rd : Body × Stream)
    (hreq : c.Interceptors.handleRequestInterceptor c.view req (some target) = (req1, tr1, none))
    (hhttp : c.http req1 = .ok rt0)
    (hresp : c.Interceptors.handleResponseInterceptor c.view req1 rt0 = (rt1, tr2, none))
    (hcl : rt1.resp.ContentLength ≠ 0)
    (hread : ReadAll (if c.debug then DumpResponse rt1 else rt1).resp.Body
                (if c.debug then DumpResponse rt1 else rt1).net = ((data, none), rd))
    (hdec : (target.decode data target.val).2 = none ∨
            (target.decode data target.val).2 = some GoError.EOF)
    (hbody : (json.decodeStatus data (⟨0, "", ""⟩,
        (if c.debug then DumpResponse rt1 else rt1).resp.backPointer false)).1.2.bodyNil = false)
    (hnz : (json.decodeStatus data (⟨0, "", ""⟩,
        (if c.debug then DumpResponse rt1 else rt1).resp.backPointer false)).1.1.Status ≠ 0)
    (hout : (json.decodeStatus data (⟨0, "", ""⟩,
        (if c.debug then DumpResponse rt1 else rt1).resp.backPointer false)).1.1.Status < 200 ∨
      (json.decodeStatus data (⟨0, "", ""⟩,
        (if c.debug then DumpResponse rt1 else rt1).resp.backPointer false)).1.1.Status > 299) :
    (c.Do json req (some target)).err
      = some (GoError.status (json.decodeStatus data (⟨0, "", ""⟩,
          (if c.debug then DumpResponse rt1 else rt1).resp.backPointer false)).1.1) ∧
    (c.Do json req (some target)).panics = false ∧
    (c.Do json req (some target)).resp
      = some ((json.decodeStatus data (⟨0, "", ""⟩,
          (if c.debug then DumpResponse rt1 else rt1).resp.backPointer false)).1.2.response
            rd.1) := by
  have hcl' : (if c.debug then DumpResponse rt1 else rt1).resp.ContentLength ≠ 0 := by
    split
    · rw [(DumpResponse_resp rt1).1]; exact hcl
    · exact hcl
  unfold Client.Do
  rw [hreq]
  simp only
  rw [hhttp]
  simp only
  rw [hresp]
  simp only
  generalize (if c.debug then DumpResponse rt1 else rt1) = rt2 at hread hbody hnz hout hcl' ⊢
  have herr := StatusResponse.Error_ne_empty _ hnz hout
  have hprim : decodePrimary data [targetDecoder target]
      (target.val, (⟨0, "", ""⟩ : StatusResponse), rt2.resp.backPointer false)
      = (((target.decode data target.val).1, ⟨0, "", ""⟩, rt2.resp.backPointer false), none) := by
    rcases hdec with h | h <;> simp [decodePrimary, targetDecoder, h]
  rw [if_neg hcl']
  simp only [Unmarshal, hread, hprim, decodeOptional, statusDecoder]
  simp [herr, returnDeferred, hbody]
theorem CheckResponse_2xx (json : JSON) (r : RoundTrip) (bodyNil : Bool)
    (h : 200 ≤ r.resp.StatusCode ∧ r.resp.StatusCode ≤ 299) :
    CheckResponse json r bodyNil = { err := none, r := r, bodyNil := bodyNil, panics := false } := by
  unfold CheckResponse
  simp only [ge_iff_le]
  rw [if_pos h]

/-- Once `Unmarshal` has read the body, `CheckResponse` finds it drained: it
reads no bytes, decodes nothing and returns nil, whatever the status code. -/
theorem CheckResponse_drained (json : JSON) (r : RoundTrip) (data : Bytes) (rd : Body × Stream)
    (hread : ReadAll r.resp.Body r.net = ((data, none), rd))
    (hcl : r.resp.ContentLength ≠ 0) :
    (CheckResponse json { resp := { r.resp with Body := rd.1 }, net := rd.2 } false).err = none ∧
    (CheckResponse json { resp := { r.resp with Body := rd.1 }, net := rd.2 } false).panics
      = false ∧
    (CheckResponse json { resp := { r.resp with Body := rd.1 }, net := rd.2 } false).bodyNil
      = false := by
  obtain ⟨⟨sc, cl, hd, b⟩, net⟩ := r
  simp only at hcl
  unfold CheckResponse
  simp only
  split
  · exact ⟨rfl, rfl, rfl⟩
  · cases b with
    | net =>
      simp only [ReadAll, Prod.mk.injEq] at hread
      obtain ⟨⟨-, herr⟩, rfl⟩ := hread
      simp [ReadAll, herr, hcl, Response.backPointer]
    | nop d =>
      simp only [ReadAll, Prod.mk.injEq] at hread
      obtain ⟨-, rfl⟩ := hread
      simp [ReadAll, hcl, Response.backPointer]

/-- As long as the body does not make the decoder rewrite the response through
the back-pointer of the envelope, a body that decodes into the target with an
envelope that reports no error gives a nil error from `Do`, for every HTTP
status code. -/
theorem Do_nil_of_quiet_envelope (json : JSON) (c : Client) (req req1 : Request)
    (target : Target) (tr1 tr2 : List Event) (rt0 rt1 : RoundTrip)
    (data : Bytes) (rd : Body × Stream)
    (hreq : c.Interceptors.handleRequestInterceptor c.view req (some target) = (req1, tr1, none))
    (hhttp : c.http req1 = .ok rt0)
    (hresp : c.Interceptors.handleResponseInterceptor c.view req1 rt0 = (rt1, tr2, none))
    (hread : ReadAll (if c.debug then DumpResponse rt1 else rt1).resp.Body
                (if c.debug then DumpResponse rt1 else rt1).net = ((data, none), rd))
    (hdec : (target.decode data target.val).2 = none ∨
            (target.decode data target.val).2 = some GoError.EOF)
    (hptr : (json.decodeStatus data (⟨0, "", ""⟩,
        (if c.debug then DumpResponse rt1 else rt1).resp.backPointer false)).1.2
      = (if c.debug then DumpResponse rt1 else rt1).resp.backPointer false)
    (hst : (json.decodeStatus data (⟨0, "", ""⟩,
        (if c.debug then DumpResponse rt1 else rt1).resp.backPointer false)).1.1.Error = "") :
    (c.Do json req (some target)).err = none ∧
    (c.Do json req (some target)).panics = false := by
  unfold Client.Do
  rw [hreq]
  simp only
  rw [hhttp]
  simp only
  rw [hresp]
  simp only
  generalize (if c.debug then DumpResponse rt1 else rt1) = rt2 at hread hptr hst ⊢
  have hprim : decodePrimary data [targetDecoder target]
      (target.val, (⟨0, "", ""⟩ : StatusResponse), rt2.resp.backPointer false)
      = (((target.decode data target.val).1, ⟨0, "", ""⟩, rt2.resp.backPointer false), none) := by
    rcases hdec with h | h <;> simp [decodePrimary, targetDecoder, h]
  by_cases hcl : rt2.resp.ContentLength = 0
  · rw [if_pos hcl]; simp [returnDeferred]
  · rw [if_neg hcl]
    obtain ⟨h1, h2, h3⟩ := CheckResponse_drained json rt2 data rd hread hcl
    simp only [Unmarshal, hread, hprim, decodeOptional, statusDecoder]
    have hnil : (rt2.resp.backPointer false).bodyNil = false := rfl
    simp only [List.length_cons, List.length_nil, Nat.add_eq_zero, one_ne_zero, and_false,
      and_self, if_false, ne_eq, not_true_eq_false, hst, hptr,
      BackPointer.response_backPointer, hnil]
    simp [h1, h2, h3, returnDeferred]

theorem decodePrimary_spec {σ : Type} (b : Bytes) :
    ∀ (vv : List (Decoder σ)) (st : σ),
      ((decodePrimary b vv st).2 ≠ none ↔
        ∃ (i : Nat) (h : i < vv.length),
          (vv[i] b ((vv.take i).foldl (fun s d => (d b s).1) st)).2 ≠ none ∧
          (vv[i] b ((vv.take i).foldl (fun s d => (d b s).1) st)).2 ≠ some GoError.EOF) ∧
      ((decodePrimary b vv st).2 = none →
        (decodePrimary b vv st).1 = vv.foldl (fun s d => (d b s).1) st) := by
  intro vv
  induction vv with
  | nil => intro st; simp [decodePrimary]
  | cons v rest ih =>
    intro st
    rw [decodePrimary]
    have hst : (v b st).1 = (v b st).1 := rfl
    rcases hvb : v b st with ⟨st', err⟩
    rw [hvb] at hst
    simp only at hst
    simp only
    by_cases hv : err ≠ none ∧ err ≠ some GoError.EOF
    · rw [if_pos hv]
      obtain ⟨e, he⟩ := Option.ne_none_iff_exists'.1 hv.1
      subst he
      constructor
      · constructor
        · intro _
          exact ⟨0, by simp, by simp [hvb], by simpa [hvb] using hv.2⟩
        · intro _
          simp
      · intro h
        simp at h
    · rw [if_neg hv]
      obtain ⟨ih1, ih2⟩ := ih st'
      constructor
      · rw [ih1]
        constructor
        · rintro ⟨i, hi, h1, h2⟩
          exact ⟨i + 1, by simpa using hi, by simpa [hvb] using h1, by simpa [hvb] using h2⟩
        · rintro ⟨i, hi, h1, h2⟩
          cases i with
          | zero => exact absurd ⟨by simpa [hvb] using h1, by simpa [hvb] using h2⟩ hv
          | succ j =>
            exact ⟨j, by simpa using hi, by simpa [hvb] using h1, by simpa [hvb] using h2⟩
      · intro h
        rw [ih2 h]
        simp [hvb]

theorem decodeOptional_eq_foldl {σ : Type} (b : Bytes) :
    ∀ (vv : List (Decoder σ)) (st : σ),
      decodeOptional b vv st = vv.foldl (fun s d => (d b s).1) st := by
  intro vv
  induction vv with
  | nil => intro st; rfl
  | cons v rest ih => intro st; simp [decodeOptional, ih]

/-- C7: with at least one target, `Unmarshal` reads the reader once, and
returns an error exactly when that read fails or the decoder of some primary
target returns an error other than `io.EOF` on the bytes read; decode errors
of optional targets and `io.EOF` on a primary target do not make it fail,
and when it returns nil every target has been decoded, in order, from those
same bytes. -/
theorem Unmarshal_error_iff {σ : Type} (r : Body) (net : Stream)
    (vv optionalVv : List (Decoder σ)) (st : σ)
    (hne : ¬ (vv.length = 0 ∧ optionalVv.length = 0)) :
    (Unmarshal r net vv optionalVv st).1 = (ReadAll r net).2 ∧
    ((Unmarshal r net vv optionalVv st).2.2 ≠ none ↔
      ((ReadAll r net).1.2 ≠ none ∨
        ∃ (i : Nat) (h : i < vv.length),
          (vv[i] (ReadAll r net).1.1
            ((vv.take i).foldl (fun s d => (d (ReadAll r net).1.1 s).1) st)).2 ≠ none ∧
          (vv[i] (ReadAll r net).1.1
            ((vv.take i).foldl (fun s d => (d (ReadAll r net).1.1 s).1) st)).2
              ≠ some GoError.EOF)) ∧
    ((Unmarshal r net vv optionalVv st).2.2 = none →
      (Unmarshal r net vv optionalVv st).2.1
        = (vv ++ optionalVv).foldl (fun s d => (d (ReadAll r net).1.1 s).1) st) := by
  unfold Unmarshal
  rw [if_neg hne]
  rcases hr : ReadAll r net with ⟨⟨b, _ | e⟩, rd⟩
  · simp only
    obtain ⟨h1, h2⟩ := decodePrimary_spec b vv st
    rcases hp : decodePrimary b vv st with ⟨st', _ | e⟩
    · rw [hp] at h1 h2
      simp only at h1 h2
      refine ⟨rfl, ?_, ?_⟩
      · simpa using h1
      · intro _
        simp only [List.foldl_append, ← h2 trivial, decodeOptional_eq_foldl]
    · rw [hp] at h1 h2
      simp only at h1 h2
      refine ⟨rfl, ?_, ?_⟩
      · simpa using h1
      · intro h; simp at h
  · simp

/-- C7 at an empty in-memory body, one primary target and the status
envelope as optional target: the read is accounted for and no error is
returned. -/
theorem Unmarshal_error_iff_witness :
    (Unmarshal (Body.nop "") ⟨"", none, none, 0⟩ [targetDecoder rawTarget]
        [statusDecoder sampleJSON Bytes] ("", ⟨0, "", ""⟩, ⟨200, 0, [], false⟩)).1
      = (Body.nop "", ⟨"", none, none, 0⟩) ∧
    (Unmarshal (Body.nop "") ⟨"", none, none, 0⟩ [targetDecoder rawTarget]
        [statusDecoder sampleJSON Bytes] ("", ⟨0, "", ""⟩, ⟨200, 0, [], false⟩)).2.2 = none := by
  have h := Unmarshal_error_iff (Body.nop "") ⟨"", none, none, 0⟩ [targetDecoder rawTarget]
    [statusDecoder sampleJSON Bytes] ("", ⟨0, "", ""⟩, ⟨200, 0, [], false⟩) (by decide)
  exact ⟨h.1, by decide⟩
/-- C2 on the code: for a response with HTTP status 200, content length 39
and body `{"status":500,"Response":{"Body":null}}`, the decode into the local
`status` sets `httpResp.Body` to nil through the back-pointer, and the
deferred `httpResp.Body.Close()` panics: `Do` returns neither the response
nor the `StatusResponse` error, with debug off and on. The same envelope
without the `Response` key is returned as the error. -/
theorem Do_status_envelope_nil_body :
    ((sampleClient (fixedTransport 200 39
          "\x7b\"status\":500,\"Response\":\x7b\"Body\":null\x7d\x7d") [] []).Do
        sampleJSON sampleRequest (some rawTarget)).panics = true ∧
    ((sampleClient (fixedTransport 200 39
          "\x7b\"status\":500,\"Response\":\x7b\"Body\":null\x7d\x7d") [] []).Do
        sampleJSON sampleRequest (some rawTarget)).err = none ∧
    ((sampleClient (fixedTransport 200 39
          "\x7b\"status\":500,\"Response\":\x7b\"Body\":null\x7d\x7d") [] []).Do
        sampleJSON sampleRequest (some rawTarget)).resp = none ∧
    (((sampleClient (fixedTransport 200 39
          "\x7b\"status\":500,\"Response\":\x7b\"Body\":null\x7d\x7d") [] []).SetDebug true).Do
        sampleJSON sampleRequest (some rawTarget)).panics = true ∧
    ((sampleClient (fixedTransport 200 27 "\x7b\"status\":500,\"msg\":\"down\"\x7d") [] []).Do
        sampleJSON sampleRequest (some rawTarget)).err
      = some (GoError.status ⟨500, "down", ""⟩) ∧
    ((sampleClient (fixedTransport 200 27 "\x7b\"status\":500,\"msg\":\"down\"\x7d") [] []).Do
        sampleJSON sampleRequest (some rawTarget)).panics = false := by
  decide

/-- C5 on the code: for a response with HTTP status 200, content length 49
and body `{"Response":{"StatusCode":500,"ContentLength":0}}`, whose status
envelope has status 0, the decode into the local `status` rewrites
`httpResp.StatusCode` and `httpResp.ContentLength` through the back-pointer,
and `Do` returns the error "response body is empty" from `CheckResponse`.
With the body `{}` the error is nil. -/
theorem Do_2xx_rewritten_by_body :
    ((sampleClient (fixedTransport 200 49
          "\x7b\"Response\":\x7b\"StatusCode\":500,\"ContentLength\":0\x7d\x7d") [] []).Do
        sampleJSON sampleRequest (some rawTarget)).err
      = some (GoError.text "response body is empty") ∧
    ((sampleClient (fixedTransport 200 49
          "\x7b\"Response\":\x7b\"StatusCode\":500,\"ContentLength\":0\x7d\x7d") [] []).Do
        sampleJSON sampleRequest (some rawTarget)).resp = some ⟨500, 0, [], Body.nop ""⟩ ∧
    ((sampleClient (fixedTransport 200 49
          "\x7b\"Response\":\x7b\"StatusCode\":500,\"ContentLength\":0\x7d\x7d") [] []).Do
        sampleJSON sampleRequest (some rawTarget)).panics = false ∧
    ((sampleClient (fixedTransport 200 2 "\x7b\x7d") [] []).Do
        sampleJSON sampleRequest (some rawTarget)).err = none ∧
    ((sampleClient (fixedTransport 200 2 "\x7b\x7d") [] []).Do
        sampleJSON sampleRequest (some rawTarget)).panics = false := by
  decide

/-- C3 on the code: for a response with status 500, content length 18 and body
`{"Message":"boom"}`, a target that accepts the body and no interceptors,
`Do` returns the response with a nil error, with debug off and on, although
`CheckResponse` on the same response with its body unread returns the
`ErrorResponse` "boom". -/
theorem Do_http_500_boom :
    ((sampleClient (fixedTransport 500 18 "\x7b\"Message\":\"boom\"\x7d") [] []).Do
        sampleJSON sampleRequest (some rawTarget)).err = none ∧
    ((sampleClient (fixedTransport 500 18 "\x7b\"Message\":\"boom\"\x7d") [] []).Do
        sampleJSON sampleRequest (some rawTarget)).resp = some ⟨500, 18, [], Body.nop ""⟩ ∧
    ((sampleClient (fixedTransport 500 18 "\x7b\"Message\":\"boom\"\x7d") [] []).Do
        sampleJSON sampleRequest (some rawTarget)).panics = false ∧
    (((sampleClient (fixedTransport 500 18 "\x7b\"Message\":\"boom\"\x7d") [] []).SetDebug
        true).Do sampleJSON sampleRequest (some rawTarget)).err = none ∧
    (((sampleClient (fixedTransport 500 18 "\x7b\"Message\":\"boom\"\x7d") [] []).SetDebug
        true).Do sampleJSON sampleRequest (some rawTarget)).panics = false ∧
    (CheckResponse sampleJSON
        ⟨⟨500, 18, [], Body.net⟩, ⟨"\x7b\"Message\":\"boom\"\x7d", none, none, 0⟩⟩ false).err
      = some (GoError.errorResponse ⟨"boom"⟩) ∧
    (CheckResponse sampleJSON
        ⟨⟨500, 18, [], Body.net⟩, ⟨"\x7b\"Message\":\"boom\"\x7d", none, none, 0⟩⟩ false).panics
      = false := by
  decide

/-- C4 on the code: a response with status 500, an empty body and an unknown
content length (-1) gets a nil error from `CheckResponse`, without a panic;
the same response with content length 0 gets the error "response body is
empty". -/
theorem CheckResponse_empty_body_unknown_length :
    (ReadAll (Body.nop "") ⟨"", none, none, 0⟩).1 = ("", none) ∧
    (CheckResponse sampleJSON ⟨⟨500, -1, [], Body.nop ""⟩, ⟨"", none, none, 0⟩⟩ false).err
      = none ∧
    (CheckResponse sampleJSON ⟨⟨500, -1, [], Body.nop ""⟩, ⟨"", none, none, 0⟩⟩ false).panics
      = false ∧
    (CheckResponse sampleJSON ⟨⟨500, -1, [], Body.net⟩, ⟨"", none, none, 0⟩⟩ false).err
      = none ∧
    (CheckResponse sampleJSON ⟨⟨500, 0, [], Body.nop ""⟩, ⟨"", none, none, 0⟩⟩ false).err
      = some (GoError.text "response body is empty") := by
  decide

/-- The sibling path of the empty body: for a response whose status code is
outside [200,299], whose body is read without error, and whose
`ContentLength` is 0, `CheckResponse` returns the error "response body is
empty". -/
theorem CheckResponse_empty_body (json : JSON) (r : RoundTrip)
    (hcode : r.resp.StatusCode < 200 ∨ r.resp.StatusCode > 299)
    (hempty : (ReadAll r.resp.Body r.net).1 = ("", none))
    (hcl : r.resp.ContentLength = 0) :
    (CheckResponse json r false).err = some (GoError.text "response body is empty") ∧
    (CheckResponse json r false).panics = false := by
  have hnot : ¬ (r.resp.StatusCode ≥ 200 ∧ r.resp.StatusCode ≤ 299) := by omega
  unfold CheckResponse
  simp only
  rw [if_neg hnot]
  rcases hr : ReadAll r.resp.Body r.net with ⟨⟨data, err⟩, ⟨b, net⟩⟩
  rw [hr] at hempty
  simp only [Prod.mk.injEq] at hempty
  obtain ⟨rfl, rfl⟩ := hempty
  simp [hcl]

/-- C6 on the code: when a response interceptor fails (here `CheckContentType`
on a response without a `Content-Type` header), `Do` returns without closing
the body stream, with debug off and on and whatever the target; and when a response with status 500 reaches
`CheckResponse`, the body is replaced by an in-memory copy and the deferred
close never reaches the stream. A response with status 200 is closed once. -/
theorem Do_leaves_body_open :
    ((sampleClient (fixedTransport 200 2 "\x7b\x7d") [] [CheckContentType "application/json"]).Do
        sampleJSON sampleRequest (some rawTarget)).net = some ⟨"\x7b\x7d", none, none, 0⟩ ∧
    ((sampleClient (fixedTransport 200 2 "\x7b\x7d") [] [CheckContentType "application/json"]).Do
        sampleJSON sampleRequest (some rawTarget)).err
      = some (GoError.text "expected Content-Type \"application/json\", got \"\"") ∧
    (((sampleClient (fixedTransport 200 2 "\x7b\x7d") [] [CheckContentType "application/json"]
        ).SetDebug true).Do sampleJSON sampleRequest none).net
      = some ⟨"\x7b\x7d", none, none, 0⟩ ∧
    ((sampleClient (fixedTransport 500 2 "\x7b\x7d") [] []).Do
        sampleJSON sampleRequest (some rawTarget)).net = some ⟨"", none, none, 0⟩ ∧
    ((sampleClient (fixedTransport 200 2 "\x7b\x7d") [] []).Do
        sampleJSON sampleRequest (some rawTarget)).net = some ⟨"", none, none, 1⟩ ∧
    ((sampleClient (fixedTransport 200 2 "\x7b\x7d") [] [CheckContentType "application/json"]).Do
        sampleJSON sampleRequest (some rawTarget)).panics = false ∧
    ((sampleClient (fixedTransport 500 2 "\x7b\x7d") [] []).Do
        sampleJSON sampleRequest (some rawTarget)).panics = false := by
  decide

/-- C10 on the code: after `SetUserAgent("my-agent/1.0")`, `UserAgent()` is
still the package constant, and so is the `User-Agent` header of a request
built by `NewRawRequest` or `NewRequest`; the field itself has been set. -/
theorem UserAgent_ignores_SetUserAgent :
    (((NewClient (fixedTransport 200 0 "")).SetUserAgent "my-agent/1.0").UserAgent
      = "go-http-client/0.0.1") ∧
    (((NewClient (fixedTransport 200 0 "")).SetUserAgent "my-agent/1.0").userAgent
      = "my-agent/1.0") ∧
    (((NewClient (fixedTransport 200 0 "")).SetUserAgent "my-agent/1.0").NewRawRequest
        plainNewRequest "GET" "https://example.com/" "")
      = Except.ok ⟨"GET", "https://example.com/", [("User-Agent", ["go-http-client/0.0.1"])], ""⟩ ∧
    (((NewClient (fixedTransport 200 0 "")).SetUserAgent "my-agent/1.0").NewRequest
        plainNewRequest ⟨"GET", "https://example.com/", none⟩)
      = Except.ok ⟨"GET", "https://example.com/", [("User-Agent", ["go-http-client/0.0.1"])], ""⟩ := by
  refine ⟨by decide, by decide, ?_, ?_⟩ <;> rfl

theorem splitSlash_ne_nil : ∀ p : List Char, splitSlash p ≠ [] := by
  intro p
  cases p with
  | nil => simp [splitSlash]
  | cons c cs =>
    rw [splitSlash]
    split
    · simp
    · split <;> simp

theorem splitSlash_no_slash : ∀ (p : List Char), ∀ w ∈ splitSlash p, '/' ∉ w := by
  intro p
  induction p with
  | nil => intro w hw; simp [splitSlash] at hw; simp [hw]
  | cons c cs ih =>
    intro w hw
    rw [splitSlash] at hw
    split at hw
    · rcases List.mem_cons.1 hw with h | h
      · simp [h]
      · exact ih w h
    · rename_i hc
      split at hw
      · simp at hw
        subst hw
        simpa using Ne.symm hc
      · rename_i w' ws heq
        rcases List.mem_cons.1 hw with h | h
        · subst h
          have := ih w' (by rw [heq]; simp)
          simp only [List.mem_cons, not_or]
          exact ⟨Ne.symm hc, this⟩
        · exact ih w (by rw [heq]; simp [h])

theorem cleanElements_words (rooted : Bool) :
    ∀ (es out : List (List Char)),
      (∀ w ∈ es, '/' ∉ w) → (∀ w ∈ out, '/' ∉ w ∧ w ≠ []) →
      ∀ w ∈ cleanElements rooted es out, '/' ∉ w ∧ w ≠ [] := by
  intro es
  induction es with
  | nil =>
    intro out _ hout w hw
    simp [cleanElements] at hw
    exact hout w hw
  | cons e es ih =>
    intro out hes hout
    have hes' : ∀ w ∈ es, '/' ∉ w := fun w hw => hes w (List.mem_cons_of_mem _ hw)
    have he : '/' ∉ e := hes e (List.mem_cons_self _ _)
    unfold cleanElements
    split
    · exact ih out hes' hout
    · rename_i hne
      have he' : e ≠ [] := fun h => hne (Or.inl h)
      have hpush : ∀ o : List (List Char), (∀ w ∈ o, '/' ∉ w ∧ w ≠ []) →
          ∀ w ∈ e :: o, '/' ∉ w ∧ w ≠ [] := by
        intro o ho w hw
        rcases List.mem_cons.1 hw with h | h
        · subst h; exact ⟨he, he'⟩
        · exact ho w h
      split
      · split
        · split
          · exact ih [] hes' (by simp)
          · exact ih [e] hes' (hpush [] (by simp))
        · split
          · exact ih _ hes' (hpush _ hout)
          · exact ih _ hes' (fun w hw => hout w (List.mem_cons_of_mem _ hw))
      · exact ih _ hes' (hpush _ hout)

/-- No two slashes in a row. -/
theorem chain_append_of_no_slash (w l : List Char) (hw : '/' ∉ w)
    (hl : List.Chain' (fun a b => ¬ (a = '/' ∧ b = '/')) l) :
    List.Chain' (fun a b => ¬ (a = '/' ∧ b = '/')) (w ++ l) := by
  induction w with
  | nil => simpa using hl
  | cons a w ih =>
    simp only [List.mem_cons, not_or] at hw
    rw [List.cons_append, List.chain'_cons']
    refine ⟨?_, ih hw.2⟩
    intro b _ h
    exact hw.1 h.1.symm

theorem joinSlash_chain :
    ∀ ws : List (List Char), (∀ w ∈ ws, '/' ∉ w ∧ w ≠ []) →
      List.Chain' (fun a b => ¬ (a = '/' ∧ b = '/')) (joinSlash ws) ∧
      (joinSlash ws).head? ≠ some '/' := by
  intro ws
  induction ws with
  | nil => intro _; simp [joinSlash]
  | cons w ws ih =>
    intro h
    obtain ⟨hw, hwne⟩ := h w (List.mem_cons_self _ _)
    have hhead : ∀ l : List Char, (w ++ l).head? ≠ some '/' := by
      intro l
      cases w with
      | nil => exact absurd rfl hwne
      | cons a w' =>
        simp only [List.mem_cons, not_or] at hw
        simpa using Ne.symm hw.1
    cases ws with
    | nil =>
      rw [joinSlash]
      refine ⟨by simpa using chain_append_of_no_slash w [] hw List.chain'_nil, ?_⟩
      simpa using hhead []
    | cons w2 ws' =>
      rw [joinSlash]
      · obtain ⟨ih1, ih2⟩ := ih (fun x hx => h x (List.mem_cons_of_mem _ hx))
        refine ⟨chain_append_of_no_slash w _ hw ?_, hhead _⟩
        rw [List.chain'_cons']
        refine ⟨?_, ih1⟩
        intro b hb hc
        rw [Option.mem_def] at hb
        rw [hb, hc.2] at ih2
        exact ih2 rfl
      · simp

theorem cleanChars_chain (p : List Char) :
    List.Chain' (fun a b => ¬ (a = '/' ∧ b = '/')) (cleanChars p) := by
  unfold cleanChars
  cases p with
  | nil => simp
  | cons c cs =>
    simp only
    obtain ⟨h1, h2⟩ := joinSlash_chain
      (cleanElements (decide (c = '/')) (splitSlash (c :: cs)) [])
      (cleanElements_words _ _ [] (splitSlash_no_slash _) (by simp))
    have hs : List.Chain' (fun a b => ¬ (a = '/' ∧ b = '/'))
        (if decide (c = '/') = true
          then '/' :: joinSlash (cleanElements (decide (c = '/')) (splitSlash (c :: cs)) [])
          else joinSlash (cleanElements (decide (c = '/')) (splitSlash (c :: cs)) [])) := by
      split
      · rw [List.chain'_cons']
        refine ⟨?_, h1⟩
        intro b hb hc
        rw [Option.mem_def] at hb
        rw [hb, hc.2] at h2
        exact h2 rfl
      · exact h1
    split
    · simp
    · exact hs

theorem Join_no_double_slash (a b : String) : ¬ ['/', '/'] <:+: (Join a b).data := by
  intro hinf
  have hchain : List.Chain' (fun x y => ¬ (x = '/' ∧ y = '/')) (Join a b).data := by
    unfold Join
    split
    · simp
    · split
      · exact cleanChars_chain _
      · exact cleanChars_chain _
  have := hchain.infix hinf
  simp at this

theorem Values.get_Add (q : Values) (k v k' : String) :
    (q.Add k v).get k' = q.get k' ++ (if k = k' then [v] else []) := by
  induction q with
  | nil => simp [Values.Add, Values.get]
  | cons e rest ih =>
    obtain ⟨k0, vs⟩ := e
    rw [Values.Add]
    by_cases h0 : k0 = k
    · subst h0
      rw [if_pos rfl]
      by_cases h1 : k0 = k' <;> simp [Values.get, h1]
    · rw [if_neg h0]
      by_cases h1 : k0 = k'
      · subst h1
        have : ¬ k = k0 := fun h => h0 h.symm
        simp [Values.get, this]
      · simp [Values.get, h1, ih]

theorem Values.get_addValues (k k' : String) :
    ∀ (vv : List String) (q : Values),
      (addValues q k vv).get k' = q.get k' ++ (if k = k' then vv else []) := by
  intro vv
  induction vv with
  | nil => intro q; simp [addValues]
  | cons v vv ih =>
    intro q
    rw [addValues, ih, Values.get_Add]
    by_cases h : k = k' <;> simp [h]

theorem Values.get_of_not_mem (k : String) :
    ∀ q : Values, k ∉ q.map Prod.fst → q.get k = [] := by
  intro q
  induction q with
  | nil => intro _; rfl
  | cons e rest ih =>
    intro h
    obtain ⟨k0, vs⟩ := e
    simp only [List.map_cons, List.mem_cons, not_or] at h
    have : ¬ k0 = k := fun h' => h.1 h'.symm
    simp [Values.get, this, ih h.2]

theorem Values.get_addQuery (src : Values) (k' : String) :
    ∀ (ks : List String) (q : Values), ks.Nodup →
      (addQuery src q ks).get k' = q.get k' ++ (if k' ∈ ks then src.get k' else []) := by
  intro ks
  induction ks with
  | nil => intro q _; simp [addQuery]
  | cons k ks ih =>
    intro q hnd
    rw [List.nodup_cons] at hnd
    rw [addQuery, ih _ hnd.2, Values.get_addValues]
    by_cases h : k = k'
    · subst h
      simp [hnd.1]
    · have h' : ¬ k' = k := fun e => h e.symm
      simp [h, h']

theorem Values.get_addQuery_keys (src q : Values) (k' : String) :
    (addQuery src q src.keys).get k' = q.get k' ++ src.get k' := by
  rw [Values.get_addQuery src k' src.keys q (List.nodup_dedup _)]
  by_cases h : k' ∈ src.keys
  · rw [if_pos h]
  · rw [if_neg h]
    have : k' ∉ src.map Prod.fst := by
      simpa [Values.keys] using h
    rw [Values.get_of_not_mem k' src this]

/-- C9: for every base URL and every reference `p` that `url.Parse` accepts,
`GetEndpointURL` returns a URL whose raw query is the encoding of values
that hold, for each key, the values of the base query followed by those of
the query of `p`, and whose path is `path.Join` of the base path and the path
of `p`, free of double slashes; scheme and host are those of the base URL and
the client is as it was. For base path `/api`, base query `y=2` and
`/v1/users?x=1` the path is `/api/v1/users` and the encoded values hold
`x=1` and `y=2`. -/
theorem GetEndpointURL_merge (url : URLPackage) (c : Client) (p : String) (parsed : URL)
    (hp : url.Parse p = .ok parsed) :
    ∃ (u : URL) (q : Values),
      c.GetEndpointURL url p = some (u, c) ∧
      u.RawQuery = url.Encode q ∧
      (∀ k, q.get k
        = (url.ParseQuery c.baseURL.RawQuery).get k ++ (url.ParseQuery parsed.RawQuery).get k) ∧
      u.Path = Join c.baseURL.Path parsed.Path ∧
      ¬ ['/', '/'] <:+: u.Path.data ∧
      u.Scheme = c.baseURL.Scheme ∧ u.Host = c.baseURL.Host ∧
      (c.baseURL.Path = "/api" → parsed.Path = "/v1/users" →
        url.ParseQuery c.baseURL.RawQuery = [("y", ["2"])] →
        url.ParseQuery parsed.RawQuery = [("x", ["1"])] →
        u.Path = "/api/v1/users" ∧ q.get "x" = ["1"] ∧ q.get "y" = ["2"]) := by
  refine ⟨{ Scheme := c.baseURL.Scheme, Host := c.baseURL.Host,
            Path := Join c.baseURL.Path parsed.Path,
            RawQuery := url.Encode (addQuery (url.ParseQuery parsed.RawQuery)
              (url.ParseQuery c.baseURL.RawQuery) (url.ParseQuery parsed.RawQuery).keys) },
      addQuery (url.ParseQuery parsed.RawQuery) (url.ParseQuery c.baseURL.RawQuery)
        (url.ParseQuery parsed.RawQuery).keys, ?_, rfl, ?_, rfl, ?_, rfl, rfl, ?_⟩
  · unfold Client.GetEndpointURL
    rw [hp]
    rfl
  · intro k
    exact Values.get_addQuery_keys _ _ k
  · exact Join_no_double_slash _ _
  · intro h1 h2 h3 h4
    refine ⟨?_, ?_, ?_⟩
    · simp only [h1, h2]; decide
    · rw [Values.get_addQuery_keys, h3, h4]; decide
    · rw [Values.get_addQuery_keys, h3, h4]; decide

/-- C9 at base URL `https://example.com/api?y=2` and `/v1/users?x=1`. -/
theorem GetEndpointURL_merge_witness :
    ∃ (u : URL) (q : Values),
      Client.GetEndpointURL plainURL
          ((NewClient (fixedTransport 200 0 "")).SetBaseURL
            ⟨"https", "example.com", "/api", "y=2"⟩) "/v1/users?x=1"
        = some (u, (NewClient (fixedTransport 200 0 "")).SetBaseURL
            ⟨"https", "example.com", "/api", "y=2"⟩) ∧
      u.RawQuery = plainURL.Encode q ∧
      u.Path = "/api/v1/users" ∧ q.get "x" = ["1"] ∧ q.get "y" = ["2"] := by
  obtain ⟨u, q, h, hq, -, -, -, -, -, hex⟩ := GetEndpointURL_merge plainURL
    ((NewClient (fixedTransport 200 0 "")).SetBaseURL ⟨"https", "example.com", "/api", "y=2"⟩)
    "/v1/users?x=1" ⟨"", "", "/v1/users", "x=1"⟩ rfl
  exact ⟨u, q, h, hq, hex rfl rfl (by decide) (by decide)⟩

end HttpClient
